import Mathlib

/-!
# Verification of the wyoming-porcupine1 wake-word server core

Shallow embedding of `src/wyoming_porcupine1/__main__.py`: the per-connection
event handler (`Porcupine1EventHandler.handle_event` / `.disconnect` /
`._load_keyword`) and the shared `State.get_porcupine` detector construction.

Modelling conventions:
* Audio bytes are `List Nat` (byte values); machine 16-bit unpacking
  (`struct.unpack_from("h" * frame_length, ...)`) is modelled explicitly with
  two's-complement arithmetic on `Nat`/`Int`.
* The external pvporcupine library is an environment parameter: engine
  construction (`pvporcupine.create`) allocates a fresh engine instance
  (identified by a `Nat` allocation counter) whose `frame_length` is the
  library's fixed value; frame scoring (`porcupine.process`) is an oracle
  `Nat → List Int → Int` (engine id → samples → keyword index, negative
  meaning no detection), matching the opaque-engine contract.
* The `AudioChunkConverter` (16 kHz / 16-bit / mono normalization) is an
  environment function on payload bytes; timestamps pass through unchanged.
* Python exceptions become an `Except PyError` result; an escaping exception
  aborts event handling.
* `sensitivity` (a Python float that is only stored, never computed with in
  the live code) is carried as an abstract `Nat` token.
-/

namespace Porcupine1

/-- A single porcupine keyword (`Keyword` dataclass): language code, name,
and model path. -/
structure Keyword where
  language : String
  name : String
  model_path : String
deriving DecidableEq, Repr

/-- One instantiated pvporcupine engine object. `engineId` models Python
object identity (each `pvporcupine.create` call yields a fresh object);
`frame_length` is the engine's required PCM samples per `process` call. -/
structure PvPorcupine where
  engineId : Nat
  frame_length : Nat
deriving DecidableEq, Repr

/-- The `Detector` dataclass: an engine instance plus its sensitivity. -/
structure Detector where
  porcupine : PvPorcupine
  sensitivity : Nat
deriving DecidableEq, Repr

/-- Python exceptions that can escape the modelled code paths. -/
inductive PyError where
  | valueError (msg : String)
  | indexError
  | keyError
  | assertionError
deriving DecidableEq, Repr

/-- The shared `State` object: `pv_lib_paths` (language → engine library
path), `keywords` (name → keyword; an `Option` because `get_porcupine`
tests `self.keywords is None`), and the `detector_cache`
(`defaultdict(list)`, so initially the empty mapping). -/
structure State where
  pv_lib_paths : List (String × String)
  keywords : Option (List (String × Keyword))
  detector_cache : List (String × List Detector)
deriving DecidableEq, Repr

/-- External collaborators and process configuration, fixed for a run. -/
structure Env where
  /-- `AudioChunkConverter(rate=16000, width=2, channels=1).convert` acting
  on the chunk's payload bytes (deterministic reformat step). -/
  conv : List Nat → List Nat
  /-- `porcupine.process`: engine id → unpacked int16 frame → keyword index
  (negative = nothing detected). -/
  process : Nat → List Int → Int
  /-- The library's fixed `frame_length` attribute of every constructed
  engine (512 for porcupine v1; any positive value in the model). -/
  engineFrameLength : Nat
  /-- `cli_args.sensitivity` (abstract token). -/
  sensitivity : Nat

/-- First-match association-list lookup, modelling Python `dict` indexing. -/
def lookup {α : Type} (k : String) (l : List (String × α)) : Option α :=
  (l.find? (fun kv => kv.1 == k)).map (fun kv => kv.2)

/-- `State.get_porcupine`, translated line by line:
1. `if self.keywords is None: raise ValueError("No keywords")` — note the
   guard tests `is None`, not emptiness;
2. `keywords_paths` collects the model paths of all keywords whose
   `language == "en"` (the cache-lookup block above it is commented out in
   the source);
3. the debug log evaluates `keywords_paths[0]` — `IndexError` when the
   filtered list is empty;
4. `pvporcupine.create(model_path=self.pv_lib_paths["en"], ...)` —
   `KeyError` when no `"en"` library is present; construction yields a
   fresh engine instance (allocation counter `alloc`) with the library's
   fixed frame length.
Returns the detector and the advanced allocation counter. The shared state
itself is not modified (in particular `detector_cache` is untouched). -/
def State.get_porcupine (env : Env) (st : State) (alloc : Nat) (sensitivity : Nat) :
    Except PyError (Detector × Nat) :=
  match st.keywords with
  | none => .error (.valueError "No keywords")
  | some kws =>
    let keywords_paths :=
      ((kws.filter (fun kv => kv.2.language == "en")).map (fun kv => kv.2.model_path))
    if keywords_paths.isEmpty then
      .error .indexError
    else
      match lookup "en" st.pv_lib_paths with
      | none => .error .keyError
      | some _ =>
        .ok (⟨⟨alloc, env.engineFrameLength⟩, sensitivity⟩, alloc + 1)

/-- Per-connection session state of `Porcupine1EventHandler`:
`audio_buffer`, `detected`, the optionally bound `detector`,
`chunk_format` (the length of the `"h" * frame_length` format string) and
`bytes_per_chunk`. -/
structure Session where
  audio_buffer : List Nat
  detected : Bool
  detector : Option Detector
  chunk_format : Nat
  bytes_per_chunk : Nat
deriving DecidableEq, Repr

/-- Fresh session as built in `Porcupine1EventHandler.__init__`:
empty buffer, `detected = False`, no detector, empty format string,
`bytes_per_chunk = 0`. -/
def Session.init : Session :=
  { audio_buffer := [], detected := false, detector := none,
    chunk_format := 0, bytes_per_chunk := 0 }

/-- Inbound protocol events (`Describe` / `Detect` / `AudioStart` /
`AudioChunk` / `AudioStop`), plus `other` for any unrecognized type.
`detect`'s name list models `detect.names` (`None` and `[]` are both falsy
in the source's `if detect.names:`, so the empty list covers both).
`audioChunk` carries the raw payload bytes and the chunk timestamp. -/
inductive InEvent where
  | describe
  | detect (names : List String)
  | audioStart
  | audioChunk (audio : List Nat) (timestamp : Int)
  | audioStop
  | other
deriving DecidableEq, Repr

/-- Outbound events written by the handler. -/
inductive OutEvent where
  | info
  | detection (name : String) (timestamp : Int)
  | notDetected
deriving DecidableEq, Repr

/-- Signed 16-bit little-endian value of a byte pair (`struct` format
code `h`). -/
def int16OfPair (lo hi : Nat) : Int :=
  let u := lo % 256 + 256 * (hi % 256)
  if u < 32768 then (u : Int) else (u : Int) - 65536

/-- `struct.unpack_from("h" * count, data)`: read `count` consecutive
little-endian int16 values from the byte list. (In the source the buffer
slice always holds exactly `2 * count` bytes; a short buffer would raise
`struct.error`, never reached, modelled as truncation.) -/
def unpackH : Nat → List Nat → List Int
  | 0, _ => []
  | n + 1, lo :: hi :: rest => int16OfPair lo hi :: unpackH n rest
  | _ + 1, [] => []
  | _ + 1, [_] => []

/-- Fuel-indexed body of the source's drain loop: while at least one full
frame (`n = bytes_per_chunk` bytes) is buffered, unpack the leading `n`
bytes with format `"h" * chunk_format`, call `porcupine.process` on the
samples, emit `Detection(name='alexa', timestamp=chunk.timestamp)` when
the returned index is `>= 0`, and drop the consumed bytes. Returns (final
buffer, outbound events in order, the list of byte frames passed to
`process` in call order). Since every iteration consumes `n ≥ 1` bytes,
any fuel exceeding the buffer length makes this the exact loop. -/
def drainGo (p : List Int → Int) (fmt n : Nat) (ts : Int) :
    Nat → List Nat → List Nat × List OutEvent × List (List Nat)
  | 0, buf => (buf, [], [])
  | fuel + 1, buf =>
    if 0 < n ∧ n ≤ buf.length then
      let frame := buf.take n
      let idx := p (unpackH fmt frame)
      let rest := drainGo p fmt n ts fuel (buf.drop n)
      (rest.1,
       (if 0 ≤ idx then [OutEvent.detection "alexa" ts] else []) ++ rest.2.1,
       frame :: rest.2.2)
    else
      (buf, [], [])

/-- The source's drain loop
`while len(self.audio_buffer) >= self.bytes_per_chunk:` — see `drainGo`.
The fuel `buf.length + 1` is always sufficient when `0 < n`. The source's
loop diverges when `bytes_per_chunk = 0` (its condition is then always
true); the model is stated for, and only used with, `0 < n`. -/
def drain (p : List Int → Int) (fmt n : Nat) (ts : Int) (buf : List Nat) :
    List Nat × List OutEvent × List (List Nat) :=
  drainGo p fmt n ts (buf.length + 1) buf

/-- `Porcupine1EventHandler._load_keyword`: bind a freshly acquired
detector and derive `chunk_format = "h" * frame_length` (its length) and
`bytes_per_chunk = frame_length * 2`. Note that it receives no keyword
name: the requested names from a `Detect` event are not passed down. -/
def load_keyword (env : Env) (st : State) (alloc : Nat) (s : Session) :
    Except PyError (Session × Nat) :=
  match State.get_porcupine env st alloc env.sensitivity with
  | .error e => .error e
  | .ok (det, alloc') =>
    .ok ({ s with
            detector := some det,
            chunk_format := det.porcupine.frame_length,
            bytes_per_chunk := det.porcupine.frame_length * 2 }, alloc')

/-- Result of handling one inbound event: the shared state, the session,
the allocation counter, the outbound events written (in order), the value
returned by `handle_event` (`cont = false` stops the server's event loop
for this connection), and the byte frames passed to `process` (the model's
record of the `process()` invocations). -/
structure StepResult where
  state : State
  session : Session
  alloc : Nat
  outputs : List OutEvent
  cont : Bool
  frames : List (List Nat)
deriving DecidableEq, Repr

/-- `Porcupine1EventHandler.handle_event`, branch by branch:
* `Describe`: write the info event, return `True`;
* `Detect`: when `detect.names` is truthy (nonempty), `_load_keyword()`
  (the names themselves are unused); always falls through to `return True`;
* `AudioStart`: `self.detected = False`;
* `AudioChunk`: lazily `_load_keyword()` when no detector is bound, assert
  a detector is present, convert the chunk, append its bytes to
  `audio_buffer`, then run the drain loop;
* `AudioStop`: write `NotDetected` when `self.detected` is false, then
  `return False`;
* anything else: log and `return True`. -/
def handle_event (env : Env) (st : State) (alloc : Nat) (s : Session) :
    InEvent → Except PyError StepResult
  | .describe => .ok ⟨st, s, alloc, [.info], true, []⟩
  | .detect names =>
    if names.isEmpty then
      .ok ⟨st, s, alloc, [], true, []⟩
    else
      match load_keyword env st alloc s with
      | .error e => .error e
      | .ok (s1, alloc1) => .ok ⟨st, s1, alloc1, [], true, []⟩
  | .audioStart => .ok ⟨st, { s with detected := false }, alloc, [], true, []⟩
  | .audioChunk audio ts =>
    match (if s.detector.isNone then load_keyword env st alloc s else .ok (s, alloc)) with
    | .error e => .error e
    | .ok (s1, alloc1) =>
      match s1.detector with
      | none => .error .assertionError
      | some det =>
        let buf := s1.audio_buffer ++ env.conv audio
        let r := drain (env.process det.porcupine.engineId) s1.chunk_format
          s1.bytes_per_chunk ts buf
        .ok ⟨st, { s1 with audio_buffer := r.1 }, alloc1, r.2.1, true, r.2.2⟩
  | .audioStop =>
    .ok ⟨st, s, alloc, if s.detected then [] else [.notDetected], false, []⟩
  | .other => .ok ⟨st, s, alloc, [], true, []⟩

/-- The server's per-connection event loop: feed events to `handle_event`
in order, stop on an escaping exception or when a handler returns `False`
(events after that are not processed, as in `AsyncEventHandler`).
Accumulates outputs and processed frames across events. -/
def run_events (env : Env) : State → Nat → Session → List InEvent →
    Except PyError StepResult
  | st, alloc, s, [] => .ok ⟨st, s, alloc, [], true, []⟩
  | st, alloc, s, e :: es =>
    match handle_event env st alloc s e with
    | .error err => .error err
    | .ok r =>
      if r.cont then
        match run_events env r.state r.alloc r.session es with
        | .error err => .error err
        | .ok r2 =>
          .ok ⟨r2.state, r2.session, r2.alloc, r.outputs ++ r2.outputs,
               r2.cont, r.frames ++ r2.frames⟩
      else
        .ok r

/-- `Porcupine1EventHandler.disconnect`: when a detector is bound, take the
detector lock and clear the binding (`self.detector = None`; the
cache-append line is commented out in the source, so the shared state is
returned unchanged). -/
def disconnect (st : State) (s : Session) : State × Session :=
  match s.detector with
  | some _ => (st, { s with detector := none })
  | none => (st, s)

/-! ## Test fixtures: concrete environments and registries -/

/-- Environment whose engine always reports keyword index 0 (a detection on
every frame); identity converter, frame length 1 (so 2 bytes per frame). -/
def testEnvDetect : Env :=
  { conv := id, process := fun _ _ => 0, engineFrameLength := 1, sensitivity := 0 }

/-- Environment whose engine never detects (index -1 on every frame);
identity converter, frame length 1. -/
def testEnvSilent : Env :=
  { conv := id, process := fun _ _ => -1, engineFrameLength := 1, sensitivity := 0 }

/-- Registry with one English keyword, `"porcupine"`, and an English
engine library. -/
def testState : State :=
  { pv_lib_paths := [("en", "lib/common/porcupine_params.pv")],
    keywords := some [("porcupine",
      ⟨"en", "porcupine", "resources/en/linux/porcupine_linux.ppn"⟩)],
    detector_cache := [] }

/-- Registry holding zero configured keywords (an empty dict, not `None`). -/
def emptyKwState : State :=
  { pv_lib_paths := [("en", "lib/common/porcupine_params.pv")],
    keywords := some [],
    detector_cache := [] }

/-- A session already armed with engine instance 0 under the fixture
environments (frame length 1, so `bytes_per_chunk = 2`). -/
def armedSession : Session :=
  { audio_buffer := [], detected := false, detector := some ⟨⟨0, 1⟩, 0⟩,
    chunk_format := 1, bytes_per_chunk := 2 }

/-- Session well-formedness, maintained by the event handler: when no
detector is bound the buffer is empty (bytes are only appended after a
bind); when a detector is bound it came from `_load_keyword`, so its frame
length is the library's fixed value, `chunk_format` and `bytes_per_chunk`
are derived from it, and the buffer holds less than one full frame. -/
def SessionInv (env : Env) (s : Session) : Prop :=
  (s.detector = none → s.audio_buffer = []) ∧
  ∀ det, s.detector = some det →
    det.porcupine.frame_length = env.engineFrameLength ∧
    s.chunk_format = env.engineFrameLength ∧
    s.bytes_per_chunk = env.engineFrameLength * 2 ∧
    s.audio_buffer.length < s.bytes_per_chunk

/-! ## Drain-loop specification -/

/-- `drainGo` specification under sufficient fuel: the processed frames
concatenated with the leftover buffer reproduce the input buffer exactly,
every processed frame has exactly `n` bytes, and fewer than `n` bytes
remain. -/
theorem drainGo_spec (p : List Int → Int) (fmt n : Nat) (ts : Int) (hn : 0 < n) :
    ∀ fuel buf, buf.length < fuel →
      (drainGo p fmt n ts fuel buf).2.2.flatten ++ (drainGo p fmt n ts fuel buf).1 = buf ∧
      (∀ f ∈ (drainGo p fmt n ts fuel buf).2.2, f.length = n) ∧
      (drainGo p fmt n ts fuel buf).1.length < n := by
  intro fuel
  induction fuel with
  | zero =>
    intro buf hlen
    exact absurd hlen (Nat.not_lt_zero _)
  | succ fuel ih =>
    intro buf hlen
    simp only [drainGo]
    split
    · next h =>
      obtain ⟨h1, h2⟩ := h
      obtain ⟨ih1, ih2, ih3⟩ :=
        ih (buf.drop n) (by simp only [List.length_drop]; omega)
      dsimp only
      refine ⟨?_, ?_, ih3⟩
      · rw [List.flatten_cons, List.append_assoc, ih1, List.take_append_drop]
      · intro f hf
        rcases List.mem_cons.mp hf with hfr | hrest
        · subst hfr
          rw [List.length_take]
          omega
        · exact ih2 f hrest
    · next h =>
      refine ⟨by simp, by simp, ?_⟩
      dsimp only
      omega

/-- Core property of the drain loop, for a positive frame byte length `n`:
no byte dropped, none duplicated, order preserved; every processed frame
has exactly `n` bytes; fewer than `n` bytes remain buffered. -/
theorem drain_spec (p : List Int → Int) (fmt n : Nat) (ts : Int) (hn : 0 < n)
    (buf : List Nat) :
    (drain p fmt n ts buf).2.2.flatten ++ (drain p fmt n ts buf).1 = buf ∧
    (∀ f ∈ (drain p fmt n ts buf).2.2, f.length = n) ∧
    (drain p fmt n ts buf).1.length < n :=
  drainGo_spec p fmt n ts hn (buf.length + 1) buf (Nat.lt_succ_self _)

/-- The drain loop does not run at all while the buffer holds fewer than
`n` bytes. -/
theorem drain_short (p : List Int → Int) (fmt n : Nat) (ts : Int)
    (buf : List Nat) (h : buf.length < n) :
    drain p fmt n ts buf = (buf, [], []) := by
  unfold drain
  simp only [drainGo]
  rw [if_neg]
  omega

/-- Inversion for successful detector construction: the returned detector
is the freshly allocated engine (identity = the incoming allocation
counter, frame length = the library's fixed value, the requested
sensitivity), and the counter advances by one. -/
theorem get_porcupine_ok (env : Env) (st : State) (alloc sens : Nat)
    (d : Detector) (a2 : Nat)
    (h : State.get_porcupine env st alloc sens = Except.ok (d, a2)) :
    d = ⟨⟨alloc, env.engineFrameLength⟩, sens⟩ ∧ a2 = alloc + 1 := by
  unfold State.get_porcupine at h
  cases hkw : st.keywords with
  | none =>
    rw [hkw] at h
    exact absurd h (by simp)
  | some kws =>
    rw [hkw] at h
    dsimp only at h
    split at h
    · exact absurd h (by simp)
    · cases hlk : lookup "en" st.pv_lib_paths with
      | none =>
        rw [hlk] at h
        exact absurd h (by simp)
      | some p =>
        rw [hlk] at h
        injection h with h
        injection h with hd ha
        exact ⟨hd.symm, ha.symm⟩

/-- Inversion for a successful `_load_keyword`: the buffer and `detected`
flag are untouched, the fresh detector is bound, and the frame format
fields are derived from its frame length. -/
theorem load_keyword_ok (env : Env) (st : State) (alloc : Nat) (s s1 : Session)
    (a1 : Nat) (h : load_keyword env st alloc s = Except.ok (s1, a1)) :
    s1 = { s with
            detector := some ⟨⟨alloc, env.engineFrameLength⟩, env.sensitivity⟩,
            chunk_format := env.engineFrameLength,
            bytes_per_chunk := env.engineFrameLength * 2 } ∧
    a1 = alloc + 1 := by
  unfold load_keyword at h
  cases hg : State.get_porcupine env st alloc env.sensitivity with
  | error e =>
    rw [hg] at h
    exact absurd h (by simp)
  | ok da =>
    rw [hg] at h
    obtain ⟨hd, ha⟩ := get_porcupine_ok env st alloc env.sensitivity da.1 da.2 hg
    injection h with h
    injection h with hs1 ha1
    subst ha1
    refine ⟨?_, ha⟩
    rw [← hs1, hd]

/-- Concatenating lists that all have length `n` yields `count × n`
elements. -/
theorem flatten_length_const {α : Type} (n : Nat) :
    ∀ l : List (List α), (∀ f ∈ l, f.length = n) →
      l.flatten.length = l.length * n := by
  intro l
  induction l with
  | nil => intro _; simp
  | cons f rest ih =>
    intro h
    have hf : f.length = n := h f (List.mem_cons_self f rest)
    have hr := ih (fun g hg => h g (List.mem_cons_of_mem f hg))
    simp only [List.flatten_cons, List.length_append, List.length_cons, hf, hr]
    ring

/-- If `a` frames of `n` bytes plus a remainder below `n` make up exactly
`k` frames, then `a = k` and the remainder is empty. -/
theorem frame_count_eq (a k n r : Nat) (h : a * n + r = k * n) (hr : r < n) :
    a = k ∧ r = 0 := by
  have hn : 0 < n := Nat.pos_of_ne_zero (by rintro rfl; omega)
  rcases Nat.lt_trichotomy a k with hak | hak | hak
  · exfalso
    have : (a + 1) * n ≤ k * n := Nat.mul_le_mul_right n hak
    have : a * n + n ≤ k * n := by rwa [Nat.succ_mul] at this
    omega
  · subst hak
    omega
  · exfalso
    have : (k + 1) * n ≤ a * n := Nat.mul_le_mul_right n hak
    have : k * n + n ≤ a * n := by rwa [Nat.succ_mul] at this
    omega

/-- Behaviour of the event loop on a sequence of `AudioChunk` events while
a detector is bound: no error occurs, the binding and frame format are
unchanged, the frames handed to `process()` concatenated with the leftover
buffer are exactly the prior buffer followed by the normalized chunk bytes
in arrival order, every frame is full-sized, and less than one frame
remains buffered. -/
theorem run_chunks_spec (env : Env) (st : State) (alloc : Nat) :
    ∀ (chunks : List (List Nat × Int)) (s : Session) (det : Detector),
      s.detector = some det → 0 < s.bytes_per_chunk →
      s.audio_buffer.length < s.bytes_per_chunk →
      ∃ r : StepResult,
        run_events env st alloc s
            (chunks.map (fun c => InEvent.audioChunk c.1 c.2)) = Except.ok r ∧
        r.session.detector = some det ∧
        r.session.bytes_per_chunk = s.bytes_per_chunk ∧
        r.frames.flatten ++ r.session.audio_buffer =
          s.audio_buffer ++ (chunks.map (fun c => env.conv c.1)).flatten ∧
        (∀ f ∈ r.frames, f.length = s.bytes_per_chunk) ∧
        r.session.audio_buffer.length < s.bytes_per_chunk := by
  intro chunks
  induction chunks with
  | nil =>
    intro s det hdet hn hbuf
    exact ⟨⟨st, s, alloc, [], true, []⟩, rfl, hdet, rfl, by simp, by simp, hbuf⟩
  | cons c rest ih =>
    intro s det hdet hn hbuf
    have hdrain := drain_spec (env.process det.porcupine.engineId) s.chunk_format
      s.bytes_per_chunk c.2 hn (s.audio_buffer ++ env.conv c.1)
    obtain ⟨hd1, hd2, hd3⟩ := hdrain
    set dr := drain (env.process det.porcupine.engineId) s.chunk_format
      s.bytes_per_chunk c.2 (s.audio_buffer ++ env.conv c.1) with hdr
    have hstep : handle_event env st alloc s (InEvent.audioChunk c.1 c.2) =
        Except.ok ⟨st, { s with audio_buffer := dr.1 }, alloc, dr.2.1, true, dr.2.2⟩ := by
      simp only [handle_event, hdet, Option.isNone_some, Bool.false_eq_true,
        if_false, hdr]
    obtain ⟨r2, hrun2, hdet2, hbpc2, hflat2, hlen2, hlt2⟩ :=
      ih { s with audio_buffer := dr.1 } det hdet hn hd3
    refine ⟨⟨r2.state, r2.session, r2.alloc, dr.2.1 ++ r2.outputs, r2.cont,
      dr.2.2 ++ r2.frames⟩, ?_, hdet2, hbpc2, ?_, ?_, hlt2⟩
    · simp only [List.map_cons, run_events, hstep, hrun2]
      simp
    · simp only [List.flatten_append, List.append_assoc, List.map_cons,
        List.flatten_cons]
      rw [hflat2, ← List.append_assoc, hd1, List.append_assoc]
    · intro f hf
      rcases List.mem_append.mp hf with hl | hr
      · exact hd2 f hl
      · exact hlen2 f hr

/-- `handle_event` never modifies the shared `State` object: every
successful result carries the incoming state unchanged. -/
theorem handle_event_state (env : Env) (st : State) (alloc : Nat) (s : Session)
    (e : InEvent) (r : StepResult)
    (h : handle_event env st alloc s e = Except.ok r) : r.state = st := by
  cases e with
  | describe =>
    injection h with h
    rw [← h]
  | detect names =>
    by_cases hni : names.isEmpty
    · simp only [handle_event, if_pos hni] at h
      injection h with h
      rw [← h]
    · simp only [handle_event, if_neg hni] at h
      cases hl : load_keyword env st alloc s with
      | error e =>
        rw [hl] at h
        exact absurd h (by simp)
      | ok sa =>
        rw [hl] at h
        injection h with h
        rw [← h]
  | audioStart =>
    injection h with h
    rw [← h]
  | audioChunk audio ts =>
    simp only [handle_event] at h
    split at h
    · exact absurd h (by simp)
    · split at h
      · exact absurd h (by simp)
      · injection h with h
        rw [← h]
  | audioStop =>
    injection h with h
    rw [← h]
  | other =>
    injection h with h
    rw [← h]

/-- The event loop never modifies the shared `State` object. -/
theorem run_events_state (env : Env) :
    ∀ (es : List InEvent) (st : State) (alloc : Nat) (s : Session)
      (r : StepResult),
      run_events env st alloc s es = Except.ok r → r.state = st := by
  intro es
  induction es with
  | nil =>
    intro st alloc s r h
    injection h with h
    rw [← h]
  | cons e rest ih =>
    intro st alloc s r h
    simp only [run_events] at h
    split at h
    · exact absurd h (by simp)
    · next r1 h1 =>
      have hst1 := handle_event_state env st alloc s e r1 h1
      split at h
      · split at h
        · exact absurd h (by simp)
        · next r2 h2 =>
          injection h with h
          rw [← h]
          exact (ih r1.state r1.alloc r1.session r2 h2).trans hst1
      · injection h with h
        rw [← h]
        exact hst1

/-- `_load_keyword` (re)establishes session well-formedness: the bound
detector carries the library frame length, the format fields are derived
from it, and the buffer (unchanged by the load) stays below one frame. -/
theorem load_keyword_inv (env : Env) (st : State) (alloc : Nat)
    (s s1 : Session) (a1 : Nat) (hfl : 0 < env.engineFrameLength)
    (hs : SessionInv env s)
    (h : load_keyword env st alloc s = Except.ok (s1, a1)) :
    SessionInv env s1 := by
  obtain ⟨hempty, hbound⟩ := hs
  obtain ⟨hs1, ha1⟩ := load_keyword_ok env st alloc s s1 a1 h
  subst hs1
  constructor
  · intro hnone
    simp at hnone
  · intro det hdet
    simp only [Option.some.injEq] at hdet
    refine ⟨by rw [← hdet], rfl, rfl, ?_⟩
    show s.audio_buffer.length < env.engineFrameLength * 2
    cases hd : s.detector with
    | none =>
      rw [hempty hd]
      simp
      omega
    | some det0 =>
      obtain ⟨_, _, hbpc, hlen⟩ := hbound det0 hd
      rw [hbpc] at hlen
      exact hlen

/-- One handled event preserves session well-formedness. -/
theorem handle_event_inv (env : Env) (st : State) (alloc : Nat) (s : Session)
    (e : InEvent) (r : StepResult) (hfl : 0 < env.engineFrameLength)
    (hs : SessionInv env s)
    (h : handle_event env st alloc s e = Except.ok r) :
    SessionInv env r.session := by
  cases e with
  | describe =>
    injection h with h
    rw [← h]
    exact hs
  | detect names =>
    by_cases hni : names.isEmpty
    · simp only [handle_event, if_pos hni] at h
      injection h with h
      rw [← h]
      exact hs
    · simp only [handle_event, if_neg hni] at h
      split at h
      · exact absurd h (by simp)
      · next s1 a1 hl =>
        injection h with h
        rw [← h]
        exact load_keyword_inv env st alloc s s1 a1 hfl hs hl
  | audioStart =>
    injection h with h
    rw [← h]
    obtain ⟨hempty, hbound⟩ := hs
    exact ⟨hempty, hbound⟩
  | audioChunk audio ts =>
    simp only [handle_event] at h
    split at h
    · exact absurd h (by simp)
    · next s1 a1 hl =>
      have hs1 : SessionInv env s1 := by
        by_cases hd : s.detector.isNone
        · rw [if_pos hd] at hl
          exact load_keyword_inv env st alloc s s1 a1 hfl hs hl
        · rw [if_neg hd] at hl
          injection hl with hl
          injection hl with hA hB
          rw [← hA]
          exact hs
      split at h
      · exact absurd h (by simp)
      · next det hdet =>
        injection h with h
        rw [← h]
        obtain ⟨hempty1, hbound1⟩ := hs1
        obtain ⟨hflen, hfmt, hbpc, _⟩ := hbound1 det hdet
        have hn : 0 < s1.bytes_per_chunk := by
          rw [hbpc]
          omega
        obtain ⟨_, _, hd3⟩ := drain_spec (env.process det.porcupine.engineId)
          s1.chunk_format s1.bytes_per_chunk ts hn
          (s1.audio_buffer ++ env.conv audio)
        constructor
        · intro hnone
          simp only [hdet] at hnone
          exact absurd hnone (by simp)
        · intro det2 hdet2
          simp only [hdet, Option.some.injEq] at hdet2
          subst hdet2
          exact ⟨hflen, hfmt, hbpc, hd3⟩
  | audioStop =>
    injection h with h
    rw [← h]
    exact hs
  | other =>
    injection h with h
    rw [← h]
    exact hs

/-- The whole event loop preserves session well-formedness. -/
theorem run_events_inv (env : Env) (hfl : 0 < env.engineFrameLength) :
    ∀ (es : List InEvent) (st : State) (alloc : Nat) (s : Session)
      (r : StepResult), SessionInv env s →
      run_events env st alloc s es = Except.ok r → SessionInv env r.session := by
  intro es
  induction es with
  | nil =>
    intro st alloc s r hs h
    injection h with h
    rw [← h]
    exact hs
  | cons e rest ih =>
    intro st alloc s r hs h
    simp only [run_events] at h
    split at h
    · exact absurd h (by simp)
    · next r1 h1 =>
      have hs1 := handle_event_inv env st alloc s e r1 hfl hs h1
      split at h
      · split at h
        · exact absurd h (by simp)
        · next r2 h2 =>
          injection h with h
          rw [← h]
          exact ih r1.state r1.alloc r1.session r2 hs1 h2
      · injection h with h
        rw [← h]
        exact hs1

/-- `_load_keyword` neither reads nor depends on the detector cache. -/
theorem load_keyword_cache (env : Env) (st : State) (alloc : Nat)
    (s : Session) (c : List (String × List Detector)) :
    load_keyword env { st with detector_cache := c } alloc s =
      load_keyword env st alloc s := rfl

/-- `handle_event` never reads the detector cache: running it on a state
with any other cache contents yields the identical result, with only the
(unread, unmodified) cache field differing. -/
theorem handle_event_cache (env : Env) (st : State) (alloc : Nat)
    (s : Session) (e : InEvent) (c : List (String × List Detector))
    (r : StepResult)
    (h : handle_event env st alloc s e = Except.ok r) :
    handle_event env { st with detector_cache := c } alloc s e =
      Except.ok { r with state := { r.state with detector_cache := c } } := by
  cases e with
  | describe =>
    injection h with h
    rw [← h]
    rfl
  | detect names =>
    by_cases hni : names.isEmpty
    · simp only [handle_event, if_pos hni] at h ⊢
      injection h with h
      rw [← h]
    · simp only [handle_event, if_neg hni] at h ⊢
      rw [load_keyword_cache env st alloc s c]
      split at h
      · exact absurd h (by simp)
      · next s1 a1 hl =>
        injection h with h
        rw [← h]
  | audioStart =>
    injection h with h
    rw [← h]
    rfl
  | audioChunk audio ts =>
    simp only [handle_event] at h ⊢
    rw [load_keyword_cache env st alloc s c]
    split at h
    · exact absurd h (by simp)
    · next s1 a1 hl =>
      split at h
      · exact absurd h (by simp)
      · next det hdet =>
        simp only [hdet]
        injection h with h
        rw [← h, hdet]
  | audioStop =>
    injection h with h
    rw [← h]
    rfl
  | other =>
    injection h with h
    rw [← h]
    rfl

/-- The event loop never reads the detector cache: a run started with any
other cache contents reaches the identical result, the untouched cache
field aside. -/
theorem run_events_cache (env : Env) :
    ∀ (es : List InEvent) (st : State) (alloc : Nat) (s : Session)
      (c : List (String × List Detector)) (r : StepResult),
      run_events env st alloc s es = Except.ok r →
      run_events env { st with detector_cache := c } alloc s es =
        Except.ok { r with state := { r.state with detector_cache := c } } := by
  intro es
  induction es with
  | nil =>
    intro st alloc s c r h
    injection h with h
    rw [← h]
    rfl
  | cons e rest ih =>
    intro st alloc s c r h
    simp only [run_events] at h ⊢
    split at h
    · exact absurd h (by simp)
    · next r1 h1 =>
      rw [handle_event_cache env st alloc s e c r1 h1]
      dsimp only
      split at h
      · next hc =>
        rw [if_pos hc]
        split at h
        · exact absurd h (by simp)
        · next r2 h2 =>
          rw [ih r1.state r1.alloc r1.session c r2 h2]
          dsimp only
          injection h with h
          rw [← h]
      · next hc =>
        rw [if_neg hc]
        injection h with h
        rw [← h]

/-- A freshly connected session is well-formed. -/
theorem sessionInv_init (env : Env) : SessionInv env Session.init := by
  constructor
  · intro _
    rfl
  · intro det hdet
    simp [Session.init] at hdet

/-! ## Claim theorems -/

/-- C1: for any sequence of `AudioChunk` events inside a bracket whose
normalized payload bytes concatenate to exactly `k × frame_byte_length`
bytes, the handler invokes `process()` exactly `k` times, each call on the
next consecutive full frame of the stream in arrival order (the processed
frames concatenate back to the exact byte stream, so no byte is processed
twice and none dropped), with partial frames buffered across chunk
boundaries and an empty leftover buffer at the end. -/
theorem c1_frame_alignment (env : Env) (st : State) (alloc : Nat)
    (s : Session) (det : Detector) (chunks : List (List Nat × Int)) (k : Nat)
    (hdet : s.detector = some det) (hn : 0 < s.bytes_per_chunk)
    (hbuf : s.audio_buffer = [])
    (hk : ((chunks.map (fun c => env.conv c.1)).flatten).length =
      k * s.bytes_per_chunk) :
    ∃ r : StepResult,
      run_events env st alloc s
          (chunks.map (fun c => InEvent.audioChunk c.1 c.2)) = Except.ok r ∧
      r.frames.length = k ∧
      r.frames.flatten = (chunks.map (fun c => env.conv c.1)).flatten ∧
      (∀ f ∈ r.frames, f.length = s.bytes_per_chunk) ∧
      r.session.audio_buffer = [] := by
  obtain ⟨r, hrun, hdet2, hbpc, hflat, hlen, hlt⟩ :=
    run_chunks_spec env st alloc chunks s det hdet hn
      (by rw [hbuf]; simpa using hn)
  rw [hbuf, List.nil_append] at hflat
  have hfl : r.frames.flatten.length = r.frames.length * s.bytes_per_chunk :=
    flatten_length_const s.bytes_per_chunk r.frames hlen
  have htot : r.frames.length * s.bytes_per_chunk +
      r.session.audio_buffer.length = k * s.bytes_per_chunk := by
    have hlen2 := congrArg List.length hflat
    rw [List.length_append, hfl, hk] at hlen2
    exact hlen2
  obtain ⟨hcount, hzero⟩ := frame_count_eq r.frames.length k
    s.bytes_per_chunk r.session.audio_buffer.length htot hlt
  have hbufnil : r.session.audio_buffer = [] :=
    List.eq_nil_of_length_eq_zero hzero
  refine ⟨r, hrun, hcount, ?_, hlen, hbufnil⟩
  rw [← hflat, hbufnil, List.append_nil]

/-- C1 witnessed at the spec's own instance: with `frame_byte_length = 2`,
feeding a 1-byte chunk (`frame_byte_length − 1` bytes) followed by a
1-byte chunk produces exactly one `process()` call, on the two bytes in
arrival order. -/
theorem c1_frame_alignment_witness :
    ∃ r : StepResult,
      run_events testEnvSilent testState 0 armedSession
          (([([1], 0), ([2], 1)] : List (List Nat × Int)).map
            (fun c => InEvent.audioChunk c.1 c.2)) = Except.ok r ∧
      r.frames.length = 1 ∧
      r.frames.flatten = (([([1], 0), ([2], 1)] : List (List Nat × Int)).map
        (fun c => testEnvSilent.conv c.1)).flatten ∧
      (∀ f ∈ r.frames, f.length = armedSession.bytes_per_chunk) ∧
      r.session.audio_buffer = [] :=
  c1_frame_alignment testEnvSilent testState 0 armedSession ⟨⟨0, 1⟩, 0⟩
    [([1], 0), ([2], 1)] 1 rfl (by decide) rfl (by rfl)

/-- C8: starting from a fresh session, after the event loop handles any
sequence of inbound events, whenever a detector is bound the frame byte
length is positive and the audio buffer holds strictly fewer than
`frame_byte_length` bytes — the drain loop never leaves a full frame
unprocessed. -/
theorem c8_buffer_below_frame (env : Env) (st : State) (alloc : Nat)
    (es : List InEvent) (r : StepResult) (det : Detector)
    (hfl : 0 < env.engineFrameLength)
    (hrun : run_events env st alloc Session.init es = Except.ok r)
    (hdet : r.session.detector = some det) :
    0 < r.session.bytes_per_chunk ∧
    r.session.audio_buffer.length < r.session.bytes_per_chunk := by
  obtain ⟨_, hbound⟩ :=
    run_events_inv env hfl es st alloc Session.init r (sessionInv_init env) hrun
  obtain ⟨_, _, hbpc, hlen⟩ := hbound det hdet
  refine ⟨?_, hlen⟩
  rw [hbpc]
  omega

/-- C8 witnessed: one 1-byte chunk (below the 2-byte frame size) leaves an
armed session with a 1-byte buffer, strictly below `bytes_per_chunk`. -/
theorem c8_buffer_below_frame_witness :
    0 < (⟨testState,
          ⟨[9], false, some ⟨⟨0, 1⟩, 0⟩, 1, 2⟩, 1, [], true, []⟩ :
        StepResult).session.bytes_per_chunk ∧
    (⟨testState,
        ⟨[9], false, some ⟨⟨0, 1⟩, 0⟩, 1, 2⟩, 1, [], true, []⟩ :
      StepResult).session.audio_buffer.length <
    (⟨testState,
        ⟨[9], false, some ⟨⟨0, 1⟩, 0⟩, 1, 2⟩, 1, [], true, []⟩ :
      StepResult).session.bytes_per_chunk :=
  c8_buffer_below_frame testEnvSilent testState 0 [InEvent.audioChunk [9] 0]
    ⟨testState, ⟨[9], false, some ⟨⟨0, 1⟩, 0⟩, 1, 2⟩, 1, [], true, []⟩
    ⟨⟨0, 1⟩, 0⟩ (by decide) rfl rfl

/-- C10: the process-wide detector cache is never written — the shared
state emerges from any event-loop run unchanged, and disconnect returns
the state untouched (the cache-append is commented out) — and never read:
a run started with arbitrary other cache contents produces the identical
result apart from the untouched cache field; moreover every two
(allocator-threaded) acquisitions construct distinct fresh engine
instances, so no two sessions ever hold the same detector instance. -/
theorem c10_cache_never_touched (env : Env) (st : State) (alloc : Nat)
    (s s2 : Session) (es : List InEvent) (r : StepResult)
    (c : List (String × List Detector)) (a0 sens : Nat)
    (d1 d2 : Detector) (a1 a2 : Nat)
    (hrun : run_events env st alloc s es = Except.ok r)
    (h1 : State.get_porcupine env st a0 sens = Except.ok (d1, a1))
    (h2 : State.get_porcupine env st a1 sens = Except.ok (d2, a2)) :
    r.state = st ∧
    (disconnect st s2).1 = st ∧
    run_events env { st with detector_cache := c } alloc s es =
      Except.ok { r with state := { r.state with detector_cache := c } } ∧
    d1.porcupine.engineId ≠ d2.porcupine.engineId := by
  refine ⟨run_events_state env es st alloc s r hrun, ?_,
    run_events_cache env es st alloc s c r hrun, ?_⟩
  · unfold disconnect
    split <;> rfl
  · obtain ⟨hd1, ha1⟩ := get_porcupine_ok env st a0 sens d1 a1 h1
    obtain ⟨hd2, _⟩ := get_porcupine_ok env st a1 sens d2 a2 h2
    subst hd1
    subst hd2
    subst ha1
    simp

/-- C10 witnessed: a `Describe` run leaves the fixture state unchanged,
runs identically under a nonempty cache, and two successive acquisitions
yield engines 0 and 1. -/
theorem c10_cache_never_touched_witness :
    (⟨testState, Session.init, 0, [OutEvent.info], true, []⟩ :
      StepResult).state = testState ∧
    (disconnect testState Session.init).1 = testState ∧
    run_events testEnvSilent { testState with detector_cache := [("alexa", [])] }
        0 Session.init [InEvent.describe] =
      Except.ok { (⟨testState, Session.init, 0, [OutEvent.info], true, []⟩ :
          StepResult) with
        state := { (⟨testState, Session.init, 0, [OutEvent.info], true, []⟩ :
            StepResult).state with
          detector_cache := [("alexa", [])] } } ∧
    (⟨⟨0, 1⟩, 0⟩ : Detector).porcupine.engineId ≠
      (⟨⟨1, 1⟩, 0⟩ : Detector).porcupine.engineId :=
  c10_cache_never_touched testEnvSilent testState 0 Session.init Session.init
    [InEvent.describe] ⟨testState, Session.init, 0, [OutEvent.info], true, []⟩
    [("alexa", [])] 0 0 ⟨⟨0, 1⟩, 0⟩ ⟨⟨1, 1⟩, 0⟩ 1 2 rfl rfl rfl

/-- C2: the code never sets `detected = True`. At the failing input — an
armed bracket in which `process()` returns index 0 on a frame — the handler
emits a `Detection` event, yet the session's `detected` flag stays `false`,
and the subsequent `AudioStop` still emits `NotDetected`, contradicting the
claim that a positive detection sets `detected = true` and suppresses
`NotDetected`. -/
theorem c2_detected_never_set :
    (run_events testEnvDetect testState 0 Session.init
        [InEvent.audioStart, InEvent.audioChunk [0, 0] 5, InEvent.audioStop]).map
      (fun r => (r.outputs, r.session.detected)) =
    Except.ok ([OutEvent.detection "alexa" 5, OutEvent.notDetected], false) := by
  rfl

/-- C3: every emitted `Detection` carries the hard-coded name `'alexa'`.
With a registry whose only configured keyword is `"porcupine"` (no keyword
named `"alexa"` exists), a positive `process()` index still yields
`Detection(name='alexa')`, contradicting the claim that the index is mapped
back to the keyword actually matched. -/
theorem c3_hardcoded_name :
    (run_events testEnvDetect testState 0 Session.init
        [InEvent.audioChunk [0, 0] 7]).map (fun r => r.outputs) =
      Except.ok [OutEvent.detection "alexa" 7] ∧
    ((testState.keywords.getD []).all
      (fun kv => !(kv.2.name == "alexa"))) = true := by
  exact ⟨rfl, rfl⟩

/-- C4 counterexample: `handle_event` returns `False` on `AudioStop`, so
the server stops this connection's event loop; a second
`AudioStart`/`AudioChunk`/`AudioStop` bracket sent on the same connection
is never processed (its chunk would have produced a `Detection` under
`testEnvDetect`, but the only output is the first bracket's
`NotDetected`). This refutes the claim that the session stays connected
and can process a subsequent bracket. -/
theorem c4_audiostop_ends_connection :
    (run_events testEnvDetect testState 0 Session.init
        [InEvent.audioStop, InEvent.audioStart,
         InEvent.audioChunk [0, 0] 1, InEvent.audioStop]).map
      (fun r => (r.outputs, r.cont)) =
    Except.ok ([OutEvent.notDetected], false) := by
  rfl

/-- C4 amended: handling `AudioStop` emits `NotDetected` exactly when
nothing was detected and returns `False`, terminating the connection's
event loop; it is the terminal event for the session, not just for the
bracket. -/
theorem c4_audiostop_terminates (env : Env) (st : State) (alloc : Nat) (s : Session) :
    handle_event env st alloc s InEvent.audioStop =
      Except.ok ⟨st, s, alloc, if s.detected then [] else [OutEvent.notDetected],
        false, []⟩ := by
  rfl

/-- C5 counterexample: the pooled-reuse round-trip does not exist. A first
acquisition constructs engine instance 0; disconnecting the session that
holds it leaves the detector cache empty (the cache-append is commented
out); a second acquisition with the identical configuration constructs a
brand-new engine instance 1 rather than returning the released detector. -/
theorem c5_no_reuse :
    State.get_porcupine testEnvSilent testState 0 0 =
      Except.ok (⟨⟨0, 1⟩, 0⟩, 1) ∧
    (disconnect testState
        { Session.init with detector := some ⟨⟨0, 1⟩, 0⟩ }).1.detector_cache = [] ∧
    State.get_porcupine testEnvSilent testState 1 0 =
      Except.ok (⟨⟨1, 1⟩, 0⟩, 2) := by
  exact ⟨rfl, rfl, rfl⟩

/-- C5 amended: on disconnect the session merely clears its detector
binding, leaving the shared state (in particular the detector cache)
unchanged; a subsequent acquisition with the identical configuration
always constructs a fresh engine instance with a new identity, never the
released one. -/
theorem c5_discard_and_fresh (env : Env) (st : State) (s : Session)
    (alloc sens : Nat) (d1 d2 : Detector) (a1 a2 : Nat)
    (h1 : State.get_porcupine env st alloc sens = Except.ok (d1, a1))
    (h2 : State.get_porcupine env st a1 sens = Except.ok (d2, a2)) :
    (disconnect st { s with detector := some d1 }).1 = st ∧
    (disconnect st { s with detector := some d1 }).2.detector = none ∧
    d2.porcupine.engineId ≠ d1.porcupine.engineId := by
  refine ⟨rfl, rfl, ?_⟩
  obtain ⟨hd1, ha1⟩ := get_porcupine_ok env st alloc sens d1 a1 h1
  obtain ⟨hd2, ha2⟩ := get_porcupine_ok env st a1 sens d2 a2 h2
  subst hd1
  subst hd2
  subst ha1
  simp

/-- C5 amended, witnessed at the concrete fixture: acquisition at counter
0 yields engine 0, the disconnect leaves the state intact and unbinds, and
re-acquisition yields the distinct engine 1. -/
theorem c5_discard_and_fresh_witness :
    (disconnect testState
        { Session.init with detector := some ⟨⟨0, 1⟩, 0⟩ }).1 = testState ∧
    (disconnect testState
        { Session.init with detector := some ⟨⟨0, 1⟩, 0⟩ }).2.detector = none ∧
    (⟨⟨1, 1⟩, 0⟩ : Detector).porcupine.engineId ≠
      (⟨⟨0, 1⟩, 0⟩ : Detector).porcupine.engineId :=
  c5_discard_and_fresh testEnvSilent testState Session.init 0 0
    ⟨⟨0, 1⟩, 0⟩ ⟨⟨1, 1⟩, 0⟩ 1 2 rfl rfl

/-- C6 counterexample: with only `"porcupine"` configured, a `Detect`
naming an unconfigured keyword succeeds and binds a detector (built from
the English keywords, the requested name entirely ignored) instead of
failing with a reported error; and a `Detect` carrying no names performs
no acquisition at all (the session is returned unchanged, detector still
unbound), instead of arming with the process default keyword. -/
theorem c6_names_ignored :
    (handle_event testEnvSilent testState 0 Session.init
        (InEvent.detect ["not-a-configured-keyword"])).map
      (fun r => r.session.detector) = Except.ok (some ⟨⟨0, 1⟩, 0⟩) ∧
    handle_event testEnvSilent testState 0 Session.init (InEvent.detect []) =
      Except.ok ⟨testState, Session.init, 0, [], true, []⟩ := by
  exact ⟨rfl, rfl⟩

/-- C6 amended: a `Detect` with a nonempty name list (re)loads a detector
through `_load_keyword`, which receives no name — the result is the same
for every nonempty name list, so unconfigured names succeed whenever any
English keyword is configured; a `Detect` with no names leaves the session
unchanged and acquires nothing. -/
theorem c6_detect_behavior (env : Env) (st : State) (alloc : Nat) (s : Session)
    (names : List String) (hn : names ≠ []) :
    handle_event env st alloc s (InEvent.detect names) =
      (match load_keyword env st alloc s with
       | .error e => .error e
       | .ok (s1, alloc1) => .ok ⟨st, s1, alloc1, [], true, []⟩) ∧
    handle_event env st alloc s (InEvent.detect []) =
      Except.ok ⟨st, s, alloc, [], true, []⟩ := by
  constructor
  · show (if names.isEmpty then _ else _) = _
    rw [if_neg]
    simp [hn]
  · rfl

/-- C6 amended, witnessed: detecting an arbitrary unconfigured name on the
fixture registry equals the nameless `_load_keyword` result, and a
nameless `Detect` is a no-op. -/
theorem c6_detect_behavior_witness :
    handle_event testEnvSilent testState 0 Session.init
        (InEvent.detect ["anything"]) =
      (match load_keyword testEnvSilent testState 0 Session.init with
       | .error e => .error e
       | .ok (s1, alloc1) => .ok ⟨testState, s1, alloc1, [], true, []⟩) ∧
    handle_event testEnvSilent testState 0 Session.init (InEvent.detect []) =
      Except.ok ⟨testState, Session.init, 0, [], true, []⟩ :=
  c6_detect_behavior testEnvSilent testState 0 Session.init ["anything"]
    (by simp)

/-- C7: with zero configured keywords (an empty registry dict, which is
not `None`), `get_porcupine` does not raise the dedicated
`ValueError("No keywords")` — that guard tests `is None` — but instead
crashes with an `IndexError` from `keywords_paths[0]` in the debug-log
call; the dedicated error fires only when the registry is literally
`None`. -/
theorem c7_empty_registry_indexerror :
    State.get_porcupine testEnvSilent emptyKwState 0 0 =
      Except.error PyError.indexError ∧
    State.get_porcupine testEnvSilent { emptyKwState with keywords := none } 0 0 =
      Except.error (PyError.valueError "No keywords") := by
  exact ⟨rfl, rfl⟩

/-- C9: an inbound event of any unrecognized type reaches only the final
`else` branch: the handler logs, changes no session state, writes no
event, and returns `True` (connection stays open). -/
theorem c9_unknown_event_noop (env : Env) (st : State) (alloc : Nat) (s : Session) :
    handle_event env st alloc s InEvent.other =
      Except.ok ⟨st, s, alloc, [], true, []⟩ := by
  rfl

end Porcupine1
